import Mathlib

/-!
Verification development for the whspr streaming orchestrator
(`src/server/streamingService.ts`, with the segment batch generator from
`src/server/musicGeneration.ts` and the affirmation batch synthesizer).

Embedding conventions:
* Storage handles (audio file paths, uuid-named in the source) are modelled as
  numbers drawn from a fresh counter `nextHandle`; session ids (uuids in the
  source) are drawn from `nextSid`.
* Asynchronous work is modelled by splitting each fire-and-forget task at its
  `await` points: issuing a request records a pending task in the state, and a
  separate completion action applies the result.  This gives a step relation
  whose interleavings cover the event-loop interleavings of the source.
* Adapter calls (music generation, voice synthesis) are modelled on their
  success path: each call yields one record, as the source does when the
  spawned process succeeds.  Randomly generated prompt text is abstracted to
  the empty string (no claim observes it); the random affirmation choice is
  modelled by an adversarially chosen parameter.
* `fs.unlink` calls are logged in `released`; mutation of a session object
  that has already been removed from the registry is not tracked (it is
  unobservable through the service interface), but the events such a late
  completion emits are tracked.
-/

namespace Whspr

/-- One generated music segment (`interface GeneratedSegment`).  `audioPath`
is the storage handle; `generatedAt` is milliseconds since epoch. -/
structure GeneratedSegment where
  id : Nat
  audioPath : Nat
  duration : Nat
  prompt : String
  generatedAt : Int
  deriving Repr, DecidableEq

/-- One synthesized affirmation clip (`interface SynthesizedAudio`). -/
structure SynthesizedAudio where
  id : Nat
  audioPath : Nat
  text : String
  duration : Nat
  synthesizedAt : Int
  deriving Repr, DecidableEq

/-- `interface StreamingSession`.  Positions and times are in seconds except
`startTime`, which is an epoch timestamp in milliseconds as in the source. -/
structure StreamingSession where
  id : Nat
  userId : String
  trackId : Nat
  isActive : Bool
  startTime : Int
  currentPosition : Int
  totalDuration : Nat
  affirmationInterval : Int
  lastAffirmationTime : Int
  musicSegments : List GeneratedSegment
  affirmations : List SynthesizedAudio
  currentSegmentIndex : Nat
  bufferSize : Int
  deriving Repr, DecidableEq

/-- `interface StreamingOptions`: the optional fields are `undefined` when
absent.  JavaScript `x || d` defaulting (which also replaces a present `0`)
is applied by `jsOrInt` / `jsOrNat` below. -/
structure StreamingOptions where
  trackId : Nat
  userId : String
  affirmationInterval : Option Int := none
  bufferSize : Option Int := none
  segmentDuration : Option Nat := none
  deriving Repr, DecidableEq

/-- The track record passed to `createStreamingSession`: `duration` is the
declared track length in minutes, `affirmations` the pre-supplied texts. -/
structure TrackData where
  duration : Nat
  affirmations : List String
  deriving Repr, DecidableEq

/-- Notifications emitted through the `EventEmitter`.  Payload objects are
reduced to the identifiers the claims observe. -/
inductive Event where
  | segmentsReady (sid : Nat)
  | affirmationsReady (sid : Nat)
  | newSegmentReady (sid : Nat)
  | playAffirmation (sid : Nat) (affId : Nat)
  | sessionStopped (sid : Nat)
  deriving Repr, DecidableEq

/-- An in-flight `generateInitialSegments` task: the `segmentDuration`
argument was captured at creation time. -/
structure PendingInit where
  sid : Nat
  segmentDuration : Nat
  deriving Repr, DecidableEq

/-- An in-flight `generateAffirmationsForSession` task. -/
structure PendingAff where
  sid : Nat
  texts : List String
  deriving Repr, DecidableEq

/-- The whole observable state of the `StreamingService` singleton, plus the
bookkeeping needed for the step relation: the session map (association list
in insertion order, as a JS `Map`), fresh-id counters, the wall clock, the
event log, the pending background tasks, and the log of `fs.unlink` calls. -/
structure ServiceState where
  sessions : List (Nat × StreamingSession)
  nextSid : Nat
  nextHandle : Nat
  now : Int
  events : List Event
  pendingInit : List PendingInit
  pendingAff : List PendingAff
  pendingGen : List Nat
  released : List Nat
  deriving Repr, DecidableEq

/-- JavaScript `v || d` on an optional number. -/
def jsOrInt (o : Option Int) (d : Int) : Int :=
  match o with
  | some v => if v = 0 then d else v
  | none => d

/-- JavaScript `v || d` on an optional count. -/
def jsOrNat (o : Option Nat) (d : Nat) : Nat :=
  match o with
  | some v => if v = 0 then d else v
  | none => d

/-- `Math.ceil (a / b)` on naturals (for `b > 0`). -/
def ceilDiv (a b : Nat) : Nat := (a + b - 1) / b

/-- `this.sessions.get(sessionId)`. -/
def getSession (st : ServiceState) (sid : Nat) : Option StreamingSession :=
  (st.sessions.find? (fun p => p.1 == sid)).map Prod.snd

/-- Overwrite the entry for `sid` (mutation of the stored session object). -/
def setSession (l : List (Nat × StreamingSession)) (sid : Nat)
    (s : StreamingSession) : List (Nat × StreamingSession) :=
  l.map (fun p => if p.1 == sid then (p.1, s) else p)

/-- `this.sessions.delete(sessionId)`. -/
def deleteSession (l : List (Nat × StreamingSession)) (sid : Nat) :
    List (Nat × StreamingSession) :=
  l.filter (fun p => p.1 != sid)

/-- `createStreamingSession` (streamingService.ts 80-112): registers the new
session and launches the two background population tasks; no validation of
the options is performed. -/
def createStreamingSession (st : ServiceState) (options : StreamingOptions)
    (trackData : TrackData) : ServiceState × StreamingSession :=
  let sessionId := st.nextSid
  let session : StreamingSession :=
    { id := sessionId
      userId := options.userId
      trackId := options.trackId
      isActive := true
      startTime := st.now
      currentPosition := 0
      totalDuration := trackData.duration * 60
      affirmationInterval := jsOrInt options.affirmationInterval 30
      lastAffirmationTime := 0
      musicSegments := []
      affirmations := []
      currentSegmentIndex := 0
      bufferSize := jsOrInt options.bufferSize 3 }
  ({ st with
      sessions := st.sessions ++ [(sessionId, session)]
      nextSid := st.nextSid + 1
      pendingInit := st.pendingInit ++ [⟨sessionId, jsOrNat options.segmentDuration 60⟩]
      pendingAff := st.pendingAff ++ [⟨sessionId, trackData.affirmations⟩] },
   session)

/-- `MusicGenerationService.generateStreamingSegments` (musicGeneration.ts
242-267) on its success path: the `for (i = 0; i < segmentCount; i++)` loop
runs `segmentCount.toNat` times (an unvalidated non-positive count yields an
empty batch), each segment of duration
`Math.ceil(options.duration / segmentCount)`, with fresh handles. -/
def generateStreamingSegments (duration : Nat) (segmentCount : Int)
    (startHandle : Nat) (now : Int) : List GeneratedSegment :=
  (List.range segmentCount.toNat).map (fun i =>
    { id := startHandle + i
      audioPath := startHandle + i
      duration := ceilDiv duration segmentCount.toNat
      prompt := ""
      generatedAt := now })

/-- Completion of `generateInitialSegments` (streamingService.ts 114-143):
replaces `session.musicSegments` by the generated batch and emits
`segmentsReady`.  The source holds the session object by reference and
neither checks `isActive` nor membership in the map, so the event is emitted
even when the session has been removed; mutation of a removed object is
unobservable and not tracked. -/
def completeInitialSegments (st : ServiceState) (sid : Nat) : ServiceState :=
  match st.pendingInit.find? (fun t => t.sid == sid) with
  | none => st
  | some t =>
    let rest := st.pendingInit.eraseP (fun t => t.sid == sid)
    match getSession st sid with
    | some sess =>
      let segs := generateStreamingSegments t.segmentDuration sess.bufferSize
        st.nextHandle st.now
      { st with
          pendingInit := rest
          nextHandle := st.nextHandle + sess.bufferSize.toNat
          sessions := setSession st.sessions sid { sess with musicSegments := segs }
          events := st.events ++ [Event.segmentsReady sid] }
    | none =>
      { st with pendingInit := rest, events := st.events ++ [Event.segmentsReady sid] }

/-- `synthesizeAffirmationSequence` on its success path: one clip per text,
fresh handles, mirroring the indexed loop of the source. -/
def synthesizeAffirmationSequence (texts : List String) (startHandle : Nat)
    (now : Int) : List SynthesizedAudio :=
  (List.range texts.length).map (fun i =>
    { id := startHandle + i
      audioPath := startHandle + i
      text := texts.getD i ""
      duration := 3
      synthesizedAt := now })

/-- Completion of `generateAffirmationsForSession` (streamingService.ts
145-164): replaces `session.affirmations` and emits `affirmationsReady`. -/
def completeAffirmations (st : ServiceState) (sid : Nat) : ServiceState :=
  match st.pendingAff.find? (fun t => t.sid == sid) with
  | none => st
  | some t =>
    let rest := st.pendingAff.eraseP (fun t => t.sid == sid)
    match getSession st sid with
    | some sess =>
      let affs := synthesizeAffirmationSequence t.texts st.nextHandle st.now
      { st with
          pendingAff := rest
          nextHandle := st.nextHandle + t.texts.length
          sessions := setSession st.sessions sid { sess with affirmations := affs }
          events := st.events ++ [Event.affirmationsReady sid] }
    | none =>
      { st with pendingAff := rest, events := st.events ++ [Event.affirmationsReady sid] }

/-- `session.musicSegments[session.currentSegmentIndex]?.duration || 60`
(streamingService.ts 180): a missing segment or a zero duration falls back
to 60. -/
def currentSegmentDurationOf (session : StreamingSession) : Nat :=
  match session.musicSegments.get? session.currentSegmentIndex with
  | some seg => if seg.duration = 0 then 60 else seg.duration
  | none => 60

/-- `session.currentSegmentIndex * currentSegmentDuration +
currentSegmentDuration` (streamingService.ts 181). -/
def segmentEndTimeOf (session : StreamingSession) : Int :=
  (session.currentSegmentIndex : Int) * (currentSegmentDurationOf session : Int)
    + (currentSegmentDurationOf session : Int)

/-- The default payload used by `List.getD` below; never selected because the
index is taken modulo a nonzero length. -/
def defaultAudio : SynthesizedAudio :=
  { id := 0, audioPath := 0, text := "", duration := 0, synthesizedAt := 0 }

/-- `triggerAffirmation` (streamingService.ts 188-202): with an empty pool it
only warns; otherwise it picks the affirmation at `randIdx % length`
(modelling `Math.floor(Math.random() * length)`), records
`lastAffirmationTime = currentPosition` and emits `playAffirmation`. -/
def triggerAffirmation (session : StreamingSession) (randIdx : Nat) :
    StreamingSession × List Event :=
  if session.affirmations.length = 0 then
    (session, [])
  else
    let selected := session.affirmations.getD (randIdx % session.affirmations.length)
      defaultAudio
    ({ session with lastAffirmationTime := session.currentPosition },
     [Event.playAffirmation session.id selected.id])

/-- The affirmation part of a position update (streamingService.ts 172-177):
writes the new position and, when `position − lastAffirmationTime ≥
affirmationInterval`, runs `triggerAffirmation`.  Returns the mutated
session together with the emitted events. -/
def affPair (session : StreamingSession) (position : Int) (randIdx : Nat) :
    StreamingSession × List Event :=
  if position - session.lastAffirmationTime ≥ session.affirmationInterval then
    triggerAffirmation { session with currentPosition := position } randIdx
  else ({ session with currentPosition := position }, [])

/-- The body of `updateSessionPosition` once the session has been found
active: affirmation check, then the growth check of streamingService.ts
179-185, whose issued generation request is recorded in `pendingGen`. -/
def updateBody (st : ServiceState) (sessionId : Nat) (position : Int)
    (randIdx : Nat) (session : StreamingSession) : ServiceState :=
  let pair := affPair session position randIdx
  let st1 := { st with
      sessions := setSession st.sessions sessionId pair.1
      events := st.events ++ pair.2 }
  if position ≥ segmentEndTimeOf pair.1 - 30 then
    { st1 with pendingGen := st1.pendingGen ++ [sessionId] }
  else st1

/-- `updateSessionPosition` (streamingService.ts 166-186) up to the point
where `generateNextSegment` is awaited; the generation request it issues is
applied later by `completeGeneration`. -/
def updateSessionPosition (st : ServiceState) (sessionId : Nat) (position : Int)
    (randIdx : Nat) : Except String ServiceState :=
  match getSession st sessionId with
  | none => Except.error "Session not found or inactive"
  | some session =>
    if session.isActive = false then Except.error "Session not found or inactive" else
    Except.ok (updateBody st sessionId position randIdx session)

/-- Completion of `generateNextSegment` (streamingService.ts 204-238): the
new 60-second segment is pushed, then if the buffer now exceeds
`bufferSize + 2` the oldest segment is shifted off and its file unlinked.
The source mutates the session object it captured, so when the session has
been removed from the map only the emitted event remains observable. -/
def completeGeneration (st : ServiceState) (sid : Nat) : ServiceState :=
  if st.pendingGen.contains sid = false then st else
  let rest := st.pendingGen.eraseP (fun x => x == sid)
  let newSegment : GeneratedSegment :=
    { id := st.nextHandle, audioPath := st.nextHandle, duration := 60,
      prompt := "", generatedAt := st.now }
  match getSession st sid with
  | some sess =>
    let pushed := sess.musicSegments ++ [newSegment]
    if (pushed.length : Int) > sess.bufferSize + 2 then
      { st with
          pendingGen := rest
          nextHandle := st.nextHandle + 1
          sessions := setSession st.sessions sid { sess with musicSegments := pushed.tail }
          released := st.released ++ (pushed.head?.map (·.audioPath)).toList
          events := st.events ++ [Event.newSegmentReady sid] }
    else
      { st with
          pendingGen := rest
          nextHandle := st.nextHandle + 1
          sessions := setSession st.sessions sid { sess with musicSegments := pushed }
          events := st.events ++ [Event.newSegmentReady sid] }
  | none =>
    { st with
        pendingGen := rest
        nextHandle := st.nextHandle + 1
        events := st.events ++ [Event.newSegmentReady sid] }

/-- `cleanupSession` (streamingService.ts 260-282): the unlink calls issued
for one session, segments first, then affirmations. -/
def cleanupSession (session : StreamingSession) : List Nat :=
  session.musicSegments.map (·.audioPath) ++ session.affirmations.map (·.audioPath)

/-- `stopSession` (streamingService.ts 244-258): errors on an unknown id,
otherwise deactivates, emits `sessionStopped`, releases every owned file and
removes the record. -/
def stopSession (st : ServiceState) (sessionId : Nat) : Except String ServiceState :=
  match getSession st sessionId with
  | none => Except.error "Session not found"
  | some session =>
    Except.ok { st with
      sessions := deleteSession st.sessions sessionId
      released := st.released ++ cleanupSession session
      events := st.events ++ [Event.sessionStopped sessionId] }

/-- `getUserSessions` (streamingService.ts 304-308). -/
def getUserSessions (st : ServiceState) (userId : String) : List StreamingSession :=
  (st.sessions.map Prod.snd).filter (fun s => s.userId == userId && s.isActive)

/-- `getStreamingUrl` (streamingService.ts 310-324). -/
def getStreamingUrl (st : ServiceState) (sessionId : Nat) (segmentIndex : Nat) :
    Except String Nat :=
  match getSession st sessionId with
  | none => Except.error "Session not found or inactive"
  | some session =>
    if session.isActive = false then Except.error "Session not found or inactive" else
    match session.musicSegments.get? segmentIndex with
    | none => Except.error "Segment not found"
    | some segment => Except.ok segment.audioPath

/-- `maxInactiveTime` of the sweeper: 30 minutes in milliseconds. -/
def maxInactiveTime : Int := 30 * 60 * 1000

/-- The ids collected by the sweep pass (streamingService.ts 290-294). -/
def sweepTargets (st : ServiceState) : List Nat :=
  (st.sessions.filter (fun p =>
    !p.2.isActive || decide (st.now - p.2.startTime > maxInactiveTime))).map Prod.fst

/-- `stopSession(...).catch(...)`: a failing stop leaves the state as is. -/
def stopCaught (st : ServiceState) (sid : Nat) : ServiceState :=
  match stopSession st sid with
  | Except.ok st' => st'
  | Except.error _ => st

/-- `cleanupInactiveSessions` (streamingService.ts 284-302). -/
def cleanupInactiveSessions (st : ServiceState) : ServiceState :=
  (sweepTargets st).foldl stopCaught st

/-- The interleaving alphabet: every externally driven call plus the
completion of each kind of in-flight background task, plus the wall clock. -/
inductive Action where
  | create (options : StreamingOptions) (trackData : TrackData)
  | updatePosition (sid : Nat) (position : Int) (randIdx : Nat)
  | completeInit (sid : Nat)
  | completeAff (sid : Nat)
  | completeGen (sid : Nat)
  | stop (sid : Nat)
  | sweep
  | tick (dt : Nat)

/-- One scheduler step.  Failing calls (thrown errors) leave the state
unchanged, as the route handlers catch them. -/
def step (st : ServiceState) (a : Action) : ServiceState :=
  match a with
  | Action.create options trackData => (createStreamingSession st options trackData).1
  | Action.updatePosition sid p r =>
    match updateSessionPosition st sid p r with
    | Except.ok st' => st'
    | Except.error _ => st
  | Action.completeInit sid => completeInitialSegments st sid
  | Action.completeAff sid => completeAffirmations st sid
  | Action.completeGen sid => completeGeneration st sid
  | Action.stop sid => stopCaught st sid
  | Action.sweep => cleanupInactiveSessions st
  | Action.tick dt => { st with now := st.now + dt }

/-- The freshly constructed service. -/
def initialState : ServiceState :=
  { sessions := [], nextSid := 0, nextHandle := 0, now := 0, events := [],
    pendingInit := [], pendingAff := [], pendingGen := [], released := [] }

/-- Run a trace of actions from the initial state. -/
def run (acts : List Action) : ServiceState :=
  acts.foldl step initialState

/-- A state of the service that some trace of calls and completions can
produce. -/
def Reachable (st : ServiceState) : Prop :=
  ∃ acts, run acts = st

/-- How many `playAffirmation` events for session `sid` the log holds. -/
def playAffirmationCount (st : ServiceState) (sid : Nat) : Nat :=
  st.events.countP (fun e => match e with
    | Event.playAffirmation s _ => s == sid
    | _ => false)

/-! ### Lemmas about the session map -/

theorem keys_setSession (l : List (Nat × StreamingSession)) (sid : Nat)
    (s : StreamingSession) :
    (setSession l sid s).map Prod.fst = l.map Prod.fst := by
  unfold setSession
  rw [List.map_map]
  apply List.map_congr_left
  intro p _
  by_cases h : p.1 = sid <;> simp [Function.comp, h]

theorem find?_setSession (l : List (Nat × StreamingSession)) (sid : Nat)
    (s : StreamingSession) :
    (setSession l sid s).find? (fun p => p.1 == sid)
      = (l.find? (fun p => p.1 == sid)).map (fun p => (p.1, s)) := by
  induction l with
  | nil => rfl
  | cons a l ih =>
    by_cases h : a.1 = sid
    · have e1 : setSession (a :: l) sid s = (a.1, s) :: setSession l sid s := by
        simp [setSession, h]
      rw [e1, List.find?_cons_of_pos _ (by simp [h]),
        List.find?_cons_of_pos _ (by simp [h])]
      rfl
    · have e1 : setSession (a :: l) sid s = a :: setSession l sid s := by
        simp [setSession, h]
      rw [e1, List.find?_cons_of_neg _ (by simp [h]),
        List.find?_cons_of_neg _ (by simp [h]), ih]

theorem find?_deleteSession (l : List (Nat × StreamingSession)) (sid : Nat) :
    (deleteSession l sid).find? (fun p => p.1 == sid) = none := by
  apply List.find?_eq_none.mpr
  intro p hp
  have h2 := (List.mem_filter.mp hp).2
  simp only [bne_iff_ne, ne_eq] at h2
  simp [h2]

theorem find?_append_fresh (l : List (Nat × StreamingSession)) (n : Nat)
    (s : StreamingSession) (hk : ∀ p ∈ l, p.1 ≠ n) :
    (l ++ [(n, s)]).find? (fun p => p.1 == n) = some (n, s) := by
  induction l with
  | nil => simp [List.find?]
  | cons a l ih =>
    have ha : a.1 ≠ n := hk a (by simp)
    rw [List.cons_append, List.find?_cons_of_neg _ (by simp [ha])]
    exact ih (fun p hp => hk p (by simp [hp]))

theorem mem_of_getSession {st : ServiceState} {sid : Nat} {sess : StreamingSession}
    (h : getSession st sid = some sess) : (sid, sess) ∈ st.sessions := by
  unfold getSession at h
  cases hf : st.sessions.find? (fun p => p.1 == sid) with
  | none => rw [hf] at h; cases h
  | some p =>
    rw [hf] at h
    have hp : p.1 = sid := by simpa using List.find?_some hf
    have hm := List.mem_of_find?_eq_some hf
    have hsnd : p.2 = sess := by simpa using h
    cases p
    simp only at hp hsnd
    rw [hp, hsnd] at hm
    exact hm

theorem assoc_mem_eq {l : List (Nat × StreamingSession)}
    (hnd : (l.map Prod.fst).Nodup) {k : Nat} {a b : StreamingSession}
    (ha : (k, a) ∈ l) (hb : (k, b) ∈ l) : a = b := by
  induction l with
  | nil => cases ha
  | cons x l ih =>
    rw [List.map_cons, List.nodup_cons] at hnd
    rcases List.mem_cons.mp ha with ha1 | ha2 <;> rcases List.mem_cons.mp hb with hb1 | hb2
    · rw [← ha1] at hb1; exact (Prod.mk.injEq _ _ _ _ ▸ hb1).2.symm
    · exact absurd (List.mem_map.mpr ⟨(k, b), hb2, by rw [← ha1]⟩) hnd.1
    · exact absurd (List.mem_map.mpr ⟨(k, a), ha2, by rw [← hb1]⟩) hnd.1
    · exact ih hnd.2 ha2 hb2

theorem getSession_of_mem {st : ServiceState}
    (hnd : (st.sessions.map Prod.fst).Nodup) {sid : Nat} {sess : StreamingSession}
    (hm : (sid, sess) ∈ st.sessions) : getSession st sid = some sess := by
  unfold getSession
  cases hf : st.sessions.find? (fun p => p.1 == sid) with
  | none =>
    exact absurd (by simp : ((fun p : Nat × StreamingSession => p.1 == sid) (sid, sess)) = true)
      (by simpa using List.find?_eq_none.mp hf _ hm)
  | some p =>
    have hp : p.1 = sid := by simpa using List.find?_some hf
    have hmem := List.mem_of_find?_eq_some hf
    cases p with
    | mk k v =>
      simp only at hp
      rw [hp] at hmem
      simp [assoc_mem_eq hnd hmem hm]

/-! ### Lemmas about the generated batches -/

theorem ceilDiv_pos {a b : Nat} (ha : 0 < a) (hb : 0 < b) : 0 < ceilDiv a b := by
  have h1 : 1 * b ≤ a + b - 1 := by omega
  have h2 := (Nat.le_div_iff_mul_le hb).mpr h1
  unfold ceilDiv
  omega

theorem gss_length (d : Nat) (c : Int) (h : Nat) (now : Int) :
    (generateStreamingSegments d c h now).length = c.toNat := by
  unfold generateStreamingSegments
  rw [List.length_map, List.length_range]

theorem gss_duration {d : Nat} {c : Int} {h : Nat} {now : Int} {seg : GeneratedSegment}
    (hm : seg ∈ generateStreamingSegments d c h now) :
    seg.duration = ceilDiv d c.toNat := by
  unfold generateStreamingSegments at hm
  rcases List.mem_map.mp hm with ⟨i, _, rfl⟩
  rfl

theorem gss_count_pos {d : Nat} {c : Int} {h : Nat} {now : Int}
    {seg : GeneratedSegment} (hm : seg ∈ generateStreamingSegments d c h now) :
    0 < c.toNat := by
  unfold generateStreamingSegments at hm
  rcases List.mem_map.mp hm with ⟨i, hi, rfl⟩
  exact Nat.lt_of_le_of_lt (Nat.zero_le i) (List.mem_range.mp hi)

theorem gss_paths (d : Nat) (c : Int) (h : Nat) (now : Int) :
    (generateStreamingSegments d c h now).map (·.audioPath)
      = (List.range c.toNat).map (fun i => h + i) := by
  unfold generateStreamingSegments
  rw [List.map_map]
  rfl

theorem gss_paths_nodup (d : Nat) (c : Int) (h : Nat) (now : Int) :
    ((generateStreamingSegments d c h now).map (·.audioPath)).Nodup := by
  rw [gss_paths]
  exact List.Nodup.map (fun a b hab => by omega) (List.nodup_range _)

theorem gss_paths_lt {d : Nat} {c : Int} {h : Nat} {now : Int} {x : Nat}
    (hx : x ∈ (generateStreamingSegments d c h now).map (·.audioPath)) :
    h ≤ x ∧ x < h + c.toNat := by
  rw [gss_paths] at hx
  rcases List.mem_map.mp hx with ⟨i, hi, rfl⟩
  have := List.mem_range.mp hi
  omega

theorem sas_length (texts : List String) (h : Nat) (now : Int) :
    (synthesizeAffirmationSequence texts h now).length = texts.length := by
  unfold synthesizeAffirmationSequence
  rw [List.length_map, List.length_range]

theorem sas_paths (texts : List String) (h : Nat) (now : Int) :
    (synthesizeAffirmationSequence texts h now).map (·.audioPath)
      = (List.range texts.length).map (fun i => h + i) := by
  unfold synthesizeAffirmationSequence
  rw [List.map_map]
  rfl

theorem sas_paths_nodup (texts : List String) (h : Nat) (now : Int) :
    ((synthesizeAffirmationSequence texts h now).map (·.audioPath)).Nodup := by
  rw [sas_paths]
  exact List.Nodup.map (fun a b hab => by omega) (List.nodup_range _)

theorem sas_paths_lt {texts : List String} {h : Nat} {now : Int} {x : Nat}
    (hx : x ∈ (synthesizeAffirmationSequence texts h now).map (·.audioPath)) :
    h ≤ x ∧ x < h + texts.length := by
  rw [sas_paths] at hx
  rcases List.mem_map.mp hx with ⟨i, hi, rfl⟩
  have := List.mem_range.mp hi
  omega

theorem nodup_insert_fresh {a b : List Nat} {h : Nat}
    (hnd : (a ++ b).Nodup) (hfresh : ∀ x ∈ a ++ b, x < h) :
    ((a ++ [h]) ++ b).Nodup := by
  have hperm : (a ++ [h]) ++ b = a ++ h :: b := by simp
  rw [hperm, (List.perm_middle).nodup_iff, List.nodup_cons]
  exact ⟨fun hm => absurd rfl (Nat.ne_of_lt (hfresh h hm)).symm, hnd⟩

/-! ### The reachability invariant -/

/-- Invariant of one registered session: its record carries its own key, the
key was allocated from the id counter, `currentSegmentIndex` is never moved
off 0 (nothing in the source writes it), all segment durations are positive,
the owned storage handles are fresh-counter allocated and pairwise distinct,
and the buffer respects the `bufferSize + 2` bound — except that a session
whose unvalidated `bufferSize` is below −2 sits at the empty buffer, above
`bufferSize + 2`; the two cases combine into `max (bufferSize + 2) 0`. -/
structure SessInv (nextSid nextHandle sid : Nat) (s : StreamingSession) : Prop where
  idEq : s.id = sid
  sidLt : sid < nextSid
  idxZero : s.currentSegmentIndex = 0
  durPos : ∀ seg ∈ s.musicSegments, 0 < seg.duration
  pathsLt : ∀ x ∈ cleanupSession s, x < nextHandle
  pathsNodup : (cleanupSession s).Nodup
  bufBound : (s.musicSegments.length : Int) ≤ max (s.bufferSize + 2) 0

/-- The global reachability invariant. -/
structure Inv (st : ServiceState) : Prop where
  keysNodup : (st.sessions.map Prod.fst).Nodup
  sess : ∀ p ∈ st.sessions, SessInv st.nextSid st.nextHandle p.1 p.2
  pendInit : ∀ t ∈ st.pendingInit, t.sid < st.nextSid ∧ 0 < t.segmentDuration

theorem SessInv.mono {n n' h h' sid : Nat} {s : StreamingSession}
    (hi : SessInv n h sid s) (hn : n ≤ n') (hh : h ≤ h') : SessInv n' h' sid s :=
  { idEq := hi.idEq, sidLt := lt_of_lt_of_le hi.sidLt hn, idxZero := hi.idxZero
    durPos := hi.durPos
    pathsLt := fun x hx => lt_of_lt_of_le (hi.pathsLt x hx) hh
    pathsNodup := hi.pathsNodup, bufBound := hi.bufBound }

theorem sessInv_of_getSession {st : ServiceState} {sid : Nat} {sess : StreamingSession}
    (hI : Inv st) (h : getSession st sid = some sess) :
    SessInv st.nextSid st.nextHandle sid sess :=
  hI.sess (sid, sess) (mem_of_getSession h)

theorem sessInv_setSession {l : List (Nat × StreamingSession)} {n hd : Nat}
    (hall : ∀ p ∈ l, SessInv n hd p.1 p.2) {sid : Nat} {s' : StreamingSession}
    (hs' : SessInv n hd sid s') :
    ∀ p ∈ setSession l sid s', SessInv n hd p.1 p.2 := by
  intro p hp
  unfold setSession at hp
  rcases List.mem_map.mp hp with ⟨q, hq, hpq⟩
  by_cases h : q.1 = sid
  · rw [if_pos (by simp [h])] at hpq
    rw [← hpq]
    simpa [h] using hs'
  · rw [if_neg (by simp [h])] at hpq
    rw [← hpq]
    exact hall q hq

theorem jsOrNat_pos (o : Option Nat) {d : Nat} (hd : 0 < d) : 0 < jsOrNat o d := by
  unfold jsOrNat
  cases o with
  | none => exact hd
  | some v =>
    by_cases h : v = 0
    · simpa [h] using hd
    · simpa [h] using Nat.pos_of_ne_zero h

theorem inv_create {st : ServiceState} (hI : Inv st) (o : StreamingOptions)
    (t : TrackData) : Inv (createStreamingSession st o t).1 := by
  refine { keysNodup := ?_, sess := ?_, pendInit := ?_ }
  · show ((st.sessions ++ [(st.nextSid, _)]).map Prod.fst).Nodup
    rw [List.map_append, List.nodup_append]
    refine ⟨hI.keysNodup, by simp, ?_⟩
    intro k hk
    rcases List.mem_map.mp hk with ⟨p, hp, rfl⟩
    have := (hI.sess p hp).sidLt
    simp only [List.map_cons, List.map_nil, List.mem_singleton]
    omega
  · intro p hp
    rcases List.mem_append.mp hp with h1 | h2
    · exact (hI.sess p h1).mono (Nat.le_succ _) le_rfl
    · have hp2 : p = (st.nextSid,
          (createStreamingSession st o t).2) := by simpa using h2
      rw [hp2]
      exact { idEq := rfl, sidLt := Nat.lt_succ_self _, idxZero := rfl
              durPos := by intro seg hseg; cases hseg
              pathsLt := by intro x hx; cases hx
              pathsNodup := List.nodup_nil
              bufBound := by
                show ((List.length [] : Nat) : Int) ≤ max (jsOrInt o.bufferSize 3 + 2) 0
                simp }
  · intro u hu
    rcases List.mem_append.mp hu with h1 | h2
    · have := hI.pendInit u h1
      refine ⟨?_, this.2⟩
      show u.sid < st.nextSid + 1
      omega
    · have hu2 : u = ⟨st.nextSid, jsOrNat o.segmentDuration 60⟩ := by simpa using h2
      rw [hu2]
      exact ⟨Nat.lt_succ_self _, jsOrNat_pos _ (by omega)⟩

/-- All branches of `affPair` leave every field other than `currentPosition`
and `lastAffirmationTime` unchanged, and write `position` into
`currentPosition`. -/
theorem affPair_fields (session : StreamingSession) (p : Int) (r : Nat) :
    (affPair session p r).1.id = session.id ∧
    (affPair session p r).1.userId = session.userId ∧
    (affPair session p r).1.isActive = session.isActive ∧
    (affPair session p r).1.startTime = session.startTime ∧
    (affPair session p r).1.currentPosition = p ∧
    (affPair session p r).1.totalDuration = session.totalDuration ∧
    (affPair session p r).1.affirmationInterval = session.affirmationInterval ∧
    (affPair session p r).1.musicSegments = session.musicSegments ∧
    (affPair session p r).1.affirmations = session.affirmations ∧
    (affPair session p r).1.currentSegmentIndex = session.currentSegmentIndex ∧
    (affPair session p r).1.bufferSize = session.bufferSize := by
  unfold affPair triggerAffirmation
  by_cases h : p - session.lastAffirmationTime ≥ session.affirmationInterval
  · rw [if_pos h]
    by_cases h2 : ({ session with currentPosition := p } :
        StreamingSession).affirmations.length = 0
    · rw [if_pos h2]
      simp
    · rw [if_neg h2]
      simp
  · rw [if_neg h]
    simp

theorem inv_updateBody {st : ServiceState} {sid : Nat} {p : Int} {r : Nat}
    {sess : StreamingSession} (hI : Inv st) (hget : getSession st sid = some sess) :
    Inv (updateBody st sid p r sess) := by
  have hsi := sessInv_of_getSession hI hget
  have hf := affPair_fields sess p r
  have hpair : SessInv st.nextSid st.nextHandle sid (affPair sess p r).1 :=
    { idEq := by rw [hf.1, hsi.idEq]
      sidLt := hsi.sidLt
      idxZero := by rw [hf.2.2.2.2.2.2.2.2.2.1, hsi.idxZero]
      durPos := by rw [hf.2.2.2.2.2.2.2.1]; exact hsi.durPos
      pathsLt := by
        unfold cleanupSession
        rw [hf.2.2.2.2.2.2.2.1, hf.2.2.2.2.2.2.2.2.1]
        exact hsi.pathsLt
      pathsNodup := by
        unfold cleanupSession
        rw [hf.2.2.2.2.2.2.2.1, hf.2.2.2.2.2.2.2.2.1]
        exact hsi.pathsNodup
      bufBound := by
        rw [hf.2.2.2.2.2.2.2.1, hf.2.2.2.2.2.2.2.2.2.2]
        exact hsi.bufBound }
  unfold updateBody
  by_cases hg : p ≥ segmentEndTimeOf (affPair sess p r).1 - 30
  · rw [if_pos hg]
    exact { keysNodup := by rw [keys_setSession]; exact hI.keysNodup
            sess := sessInv_setSession hI.sess hpair
            pendInit := hI.pendInit }
  · rw [if_neg hg]
    exact { keysNodup := by rw [keys_setSession]; exact hI.keysNodup
            sess := sessInv_setSession hI.sess hpair
            pendInit := hI.pendInit }

theorem updateSessionPosition_none {st : ServiceState} {sid : Nat} {p : Int}
    {r : Nat} (hg : getSession st sid = none) :
    updateSessionPosition st sid p r = Except.error "Session not found or inactive" := by
  unfold updateSessionPosition
  rw [hg]

theorem updateSessionPosition_some {st : ServiceState} {sid : Nat} {p : Int}
    {r : Nat} {sess : StreamingSession} (hg : getSession st sid = some sess) :
    updateSessionPosition st sid p r =
      (if sess.isActive = false then Except.error "Session not found or inactive"
       else Except.ok (updateBody st sid p r sess)) := by
  unfold updateSessionPosition
  rw [hg]

theorem inv_updateOk {st st' : ServiceState} {sid : Nat} {p : Int} {r : Nat}
    (hI : Inv st) (h : updateSessionPosition st sid p r = Except.ok st') :
    Inv st' := by
  cases hg : getSession st sid with
  | none => rw [updateSessionPosition_none hg] at h; cases h
  | some sess =>
    rw [updateSessionPosition_some hg] at h
    by_cases hact : sess.isActive = false
    · rw [if_pos hact] at h; cases h
    · rw [if_neg hact] at h
      injection h with h
      rw [← h]
      exact inv_updateBody hI hg

/-! ### Projections of `updateBody` -/

theorem updateBody_sessions (st : ServiceState) (sid : Nat) (p : Int) (r : Nat)
    (sess : StreamingSession) :
    (updateBody st sid p r sess).sessions
      = setSession st.sessions sid (affPair sess p r).1 := by
  unfold updateBody
  dsimp only
  split <;> rfl

theorem updateBody_events (st : ServiceState) (sid : Nat) (p : Int) (r : Nat)
    (sess : StreamingSession) :
    (updateBody st sid p r sess).events = st.events ++ (affPair sess p r).2 := by
  unfold updateBody
  dsimp only
  split <;> rfl

theorem updateBody_pendingGen (st : ServiceState) (sid : Nat) (p : Int) (r : Nat)
    (sess : StreamingSession) :
    (updateBody st sid p r sess).pendingGen
      = st.pendingGen ++
        (if p ≥ segmentEndTimeOf (affPair sess p r).1 - 30 then [sid] else []) := by
  unfold updateBody
  dsimp only
  split <;> simp

theorem updateBody_nextSid (st : ServiceState) (sid : Nat) (p : Int) (r : Nat)
    (sess : StreamingSession) :
    (updateBody st sid p r sess).nextSid = st.nextSid := by
  unfold updateBody
  dsimp only
  split <;> rfl

theorem updateBody_released (st : ServiceState) (sid : Nat) (p : Int) (r : Nat)
    (sess : StreamingSession) :
    (updateBody st sid p r sess).released = st.released := by
  unfold updateBody
  dsimp only
  split <;> rfl

/-! ### Invariant preservation for the remaining actions -/

theorem inv_completeInit {st : ServiceState} (hI : Inv st) (sid : Nat) :
    Inv (completeInitialSegments st sid) := by
  unfold completeInitialSegments
  cases hf : st.pendingInit.find? (fun t => t.sid == sid) with
  | none => exact hI
  | some t =>
    have ht := hI.pendInit t (List.mem_of_find?_eq_some hf)
    have hpend' : ∀ u ∈ st.pendingInit.eraseP (fun t => t.sid == sid),
        u.sid < st.nextSid ∧ 0 < u.segmentDuration :=
      fun u hu => hI.pendInit u ((List.eraseP_sublist _).subset hu)
    cases hg : getSession st sid with
    | none => exact { keysNodup := hI.keysNodup, sess := hI.sess, pendInit := hpend' }
    | some sess =>
      dsimp only
      have hsi := sessInv_of_getSession hI hg
      refine { keysNodup := ?_, sess := ?_, pendInit := hpend' }
      · show ((setSession st.sessions sid _).map Prod.fst).Nodup
        rw [keys_setSession]
        exact hI.keysNodup
      · apply sessInv_setSession
        · intro q hq
          exact (hI.sess q hq).mono le_rfl (Nat.le_add_right _ _)
        · show SessInv st.nextSid (st.nextHandle + sess.bufferSize.toNat) sid _
          refine { idEq := hsi.idEq, sidLt := hsi.sidLt, idxZero := hsi.idxZero
                   durPos := ?_, pathsLt := ?_, pathsNodup := ?_, bufBound := ?_ }
          · intro seg hseg
            rw [gss_duration hseg]
            exact ceilDiv_pos ht.2 (gss_count_pos hseg)
          · intro x hx
            rcases List.mem_append.mp hx with h1 | h2
            · have := (gss_paths_lt h1).2
              omega
            · have := hsi.pathsLt x (List.mem_append_right _ h2)
              omega
          · show ((generateStreamingSegments t.segmentDuration sess.bufferSize
                st.nextHandle st.now).map (·.audioPath)
                  ++ sess.affirmations.map (·.audioPath)).Nodup
            rw [List.nodup_append]
            refine ⟨gss_paths_nodup _ _ _ _, ?_, ?_⟩
            · have hn := hsi.pathsNodup
              unfold cleanupSession at hn
              exact hn.of_append_right
            · intro x hx hx2
              have hge := (gss_paths_lt hx).1
              have hlt := hsi.pathsLt x (List.mem_append_right _ hx2)
              omega
          · show ((generateStreamingSegments t.segmentDuration sess.bufferSize
                st.nextHandle st.now).length : Int) ≤ max (sess.bufferSize + 2) 0
            rw [gss_length]
            omega

theorem inv_completeAff {st : ServiceState} (hI : Inv st) (sid : Nat) :
    Inv (completeAffirmations st sid) := by
  unfold completeAffirmations
  cases hf : st.pendingAff.find? (fun t => t.sid == sid) with
  | none => exact hI
  | some t =>
    cases hg : getSession st sid with
    | none => exact { keysNodup := hI.keysNodup, sess := hI.sess, pendInit := hI.pendInit }
    | some sess =>
      dsimp only
      have hsi := sessInv_of_getSession hI hg
      refine { keysNodup := ?_, sess := ?_, pendInit := hI.pendInit }
      · show ((setSession st.sessions sid _).map Prod.fst).Nodup
        rw [keys_setSession]
        exact hI.keysNodup
      · apply sessInv_setSession
        · intro q hq
          exact (hI.sess q hq).mono le_rfl (Nat.le_add_right _ _)
        · show SessInv st.nextSid (st.nextHandle + t.texts.length) sid _
          refine { idEq := hsi.idEq, sidLt := hsi.sidLt, idxZero := hsi.idxZero
                   durPos := hsi.durPos, pathsLt := ?_, pathsNodup := ?_
                   bufBound := hsi.bufBound }
          · intro x hx
            rcases List.mem_append.mp hx with h1 | h2
            · have := hsi.pathsLt x (List.mem_append_left _ h1)
              omega
            · have := (sas_paths_lt h2).2
              omega
          · show (sess.musicSegments.map (·.audioPath)
                ++ (synthesizeAffirmationSequence t.texts st.nextHandle
                    st.now).map (·.audioPath)).Nodup
            rw [List.nodup_append]
            refine ⟨?_, sas_paths_nodup _ _ _, ?_⟩
            · have hn := hsi.pathsNodup
              unfold cleanupSession at hn
              exact hn.of_append_left
            · intro x hx hx2
              have hlt := hsi.pathsLt x (List.mem_append_left _ hx)
              have hge := (sas_paths_lt hx2).1
              omega

theorem inv_completeGen {st : ServiceState} (hI : Inv st) (sid : Nat) :
    Inv (completeGeneration st sid) := by
  unfold completeGeneration
  by_cases hc : st.pendingGen.contains sid = false
  · rw [if_pos hc]
    exact hI
  · rw [if_neg hc]
    cases hg : getSession st sid with
    | none =>
      exact { keysNodup := hI.keysNodup
              sess := fun p hp => (hI.sess p hp).mono le_rfl (Nat.le_succ _)
              pendInit := hI.pendInit }
    | some sess =>
      dsimp only
      have hsi := sessInv_of_getSession hI hg
      have hfreshSeg : ∀ x ∈ sess.musicSegments.map (fun u => u.audioPath),
          x < st.nextHandle :=
        fun x hx => hsi.pathsLt x (List.mem_append_left _ hx)
      have hfreshAff : ∀ x ∈ sess.affirmations.map (fun u => u.audioPath),
          x < st.nextHandle :=
        fun x hx => hsi.pathsLt x (List.mem_append_right _ hx)
      by_cases hb : (((sess.musicSegments ++
          [({ id := st.nextHandle, audioPath := st.nextHandle, duration := 60,
              prompt := "", generatedAt := st.now } : GeneratedSegment)]).length : Int))
            > sess.bufferSize + 2
      · rw [if_pos hb]
        refine { keysNodup := ?_, sess := ?_, pendInit := hI.pendInit }
        · show ((setSession st.sessions sid _).map Prod.fst).Nodup
          rw [keys_setSession]
          exact hI.keysNodup
        · apply sessInv_setSession
          · intro q hq
            exact (hI.sess q hq).mono le_rfl (Nat.le_succ _)
          · show SessInv st.nextSid (st.nextHandle + 1) sid _
            cases hm : sess.musicSegments with
            | nil =>
              refine { idEq := hsi.idEq, sidLt := hsi.sidLt, idxZero := hsi.idxZero
                       durPos := ?_, pathsLt := ?_, pathsNodup := ?_, bufBound := ?_ }
              · intro seg hseg
                simp at hseg
              · intro x hx
                have hx2 : x ∈ sess.affirmations.map (fun u => u.audioPath) := by
                  simpa [cleanupSession] using hx
                have := hfreshAff x hx2
                omega
              · show (([] : List Nat)
                    ++ sess.affirmations.map (fun u => u.audioPath)).Nodup
                have hn := hsi.pathsNodup
                unfold cleanupSession at hn
                rw [List.nil_append]
                exact hn.of_append_right
              · show ((0 : Nat) : Int) ≤ max (sess.bufferSize + 2) 0
                omega
            | cons a restSegs =>
              refine { idEq := hsi.idEq, sidLt := hsi.sidLt, idxZero := hsi.idxZero
                       durPos := ?_, pathsLt := ?_, pathsNodup := ?_, bufBound := ?_ }
              · intro seg hseg
                have hseg2 : seg ∈ restSegs ∨ seg =
                    ({ id := st.nextHandle, audioPath := st.nextHandle, duration := 60,
                       prompt := "", generatedAt := st.now } : GeneratedSegment) := by
                  simpa using hseg
                rcases hseg2 with h1 | h2
                · exact hsi.durPos seg (by rw [hm]; exact List.mem_cons_of_mem _ h1)
                · rw [h2]
                  show (0:Nat) < 60
                  omega
              · intro x hx
                have hx2 : x ∈ restSegs.map (fun u => u.audioPath) ∨ x = st.nextHandle
                    ∨ x ∈ sess.affirmations.map (fun u => u.audioPath) := by
                  simpa [cleanupSession] using hx
                rcases hx2 with h1 | h2 | h3
                · have := hfreshSeg x
                    (by rw [hm, List.map_cons]; exact List.mem_cons_of_mem _ h1)
                  omega
                · omega
                · have := hfreshAff x h3
                  omega
              · show ((restSegs ++ [_]).map (fun u : GeneratedSegment => u.audioPath)
                    ++ sess.affirmations.map (fun u => u.audioPath)).Nodup
                rw [List.map_append]
                apply nodup_insert_fresh
                · have hn := hsi.pathsNodup
                  unfold cleanupSession at hn
                  rw [hm, List.map_cons, List.cons_append] at hn
                  exact hn.of_cons
                · intro x hx
                  rcases List.mem_append.mp hx with h1 | h2
                  · exact hfreshSeg x
                      (by rw [hm, List.map_cons]; exact List.mem_cons_of_mem _ h1)
                  · exact hfreshAff x h2
              · show (((restSegs ++ [_]).length : Nat) : Int)
                    ≤ max (sess.bufferSize + 2) 0
                have hbb := hsi.bufBound
                rw [hm] at hbb
                simp only [List.length_append, List.length_cons, List.length_nil] at hbb ⊢
                omega
      · rw [if_neg hb]
        refine { keysNodup := ?_, sess := ?_, pendInit := hI.pendInit }
        · show ((setSession st.sessions sid _).map Prod.fst).Nodup
          rw [keys_setSession]
          exact hI.keysNodup
        · apply sessInv_setSession
          · intro q hq
            exact (hI.sess q hq).mono le_rfl (Nat.le_succ _)
          · show SessInv st.nextSid (st.nextHandle + 1) sid _
            refine { idEq := hsi.idEq, sidLt := hsi.sidLt, idxZero := hsi.idxZero
                     durPos := ?_, pathsLt := ?_, pathsNodup := ?_, bufBound := ?_ }
            · intro seg hseg
              have hseg2 : seg ∈ sess.musicSegments ∨ seg =
                  ({ id := st.nextHandle, audioPath := st.nextHandle, duration := 60,
                     prompt := "", generatedAt := st.now } : GeneratedSegment) := by
                simpa using hseg
              rcases hseg2 with h1 | h2
              · exact hsi.durPos seg h1
              · rw [h2]
                show (0:Nat) < 60
                omega
            · intro x hx
              have hx2 : x ∈ sess.musicSegments.map (fun u => u.audioPath)
                  ∨ x = st.nextHandle
                  ∨ x ∈ sess.affirmations.map (fun u => u.audioPath) := by
                simpa [cleanupSession] using hx
              rcases hx2 with h1 | h2 | h3
              · have := hfreshSeg x h1
                omega
              · omega
              · have := hfreshAff x h3
                omega
            · show ((sess.musicSegments ++ [_]).map (fun u : GeneratedSegment => u.audioPath)
                  ++ sess.affirmations.map (fun u => u.audioPath)).Nodup
              rw [List.map_append]
              apply nodup_insert_fresh
              · have hn := hsi.pathsNodup
                unfold cleanupSession at hn
                exact hn
              · intro x hx
                rcases List.mem_append.mp hx with h1 | h2
                · exact hfreshSeg x h1
                · exact hfreshAff x h2
            · show (((sess.musicSegments ++ [_]).length : Nat) : Int)
                  ≤ max (sess.bufferSize + 2) 0
              simp only [List.length_append, List.length_cons, List.length_nil] at hb ⊢
              omega

theorem inv_stopCaught {st : ServiceState} (hI : Inv st) (sid : Nat) :
    Inv (stopCaught st sid) := by
  unfold stopCaught stopSession
  cases hg : getSession st sid with
  | none => exact hI
  | some sess =>
    exact { keysNodup :=
              List.Nodup.sublist (List.Sublist.map _ (List.filter_sublist _)) hI.keysNodup
            sess := fun p hp => hI.sess p (List.mem_of_mem_filter hp)
            pendInit := hI.pendInit }

theorem inv_foldl_stopCaught (l : List Nat) {st : ServiceState} (hI : Inv st) :
    Inv (l.foldl stopCaught st) := by
  induction l generalizing st with
  | nil => exact hI
  | cons a l ih => exact ih (inv_stopCaught hI a)

theorem inv_sweep {st : ServiceState} (hI : Inv st) : Inv (cleanupInactiveSessions st) :=
  inv_foldl_stopCaught _ hI

theorem inv_step {st : ServiceState} (hI : Inv st) (a : Action) : Inv (step st a) := by
  cases a with
  | create o t => exact inv_create hI o t
  | updatePosition sid p r =>
    show Inv (match updateSessionPosition st sid p r with
      | Except.ok st2 => st2
      | Except.error _ => st)
    cases h : updateSessionPosition st sid p r with
    | ok st2 => exact inv_updateOk hI h
    | error e => exact hI
  | completeInit sid => exact inv_completeInit hI sid
  | completeAff sid => exact inv_completeAff hI sid
  | completeGen sid => exact inv_completeGen hI sid
  | stop sid => exact inv_stopCaught hI sid
  | sweep => exact inv_sweep hI
  | tick dt => exact { keysNodup := hI.keysNodup, sess := hI.sess, pendInit := hI.pendInit }

theorem inv_initialState : Inv initialState :=
  { keysNodup := List.nodup_nil
    sess := by intro p hp; cases hp
    pendInit := by intro t ht; cases ht }

theorem inv_foldl (acts : List Action) {st : ServiceState} (hI : Inv st) :
    Inv (acts.foldl step st) := by
  induction acts generalizing st with
  | nil => exact hI
  | cons a acts ih => exact ih (inv_step hI a)

theorem inv_run (acts : List Action) : Inv (run acts) :=
  inv_foldl acts inv_initialState

theorem inv_reachable {st : ServiceState} (h : Reachable st) : Inv st := by
  rcases h with ⟨acts, rfl⟩
  exact inv_run acts

/-! ### A removed session id never reappears -/

theorem fst_mem_setSession {l : List (Nat × StreamingSession)} {k : Nat}
    {s : StreamingSession} {p : Nat × StreamingSession}
    (hp : p ∈ setSession l k s) : ∃ q ∈ l, p.1 = q.1 := by
  unfold setSession at hp
  rcases List.mem_map.mp hp with ⟨q, hq, hpq⟩
  refine ⟨q, hq, ?_⟩
  by_cases h : q.1 = k
  · rw [if_pos (by simp [h])] at hpq
    rw [← hpq]
  · rw [if_neg (by simp [h])] at hpq
    rw [← hpq]

theorem mem_stopCaught {st : ServiceState} {sid : Nat} {p : Nat × StreamingSession}
    (hp : p ∈ (stopCaught st sid).sessions) : p ∈ st.sessions := by
  revert hp
  unfold stopCaught stopSession
  cases hg : getSession st sid with
  | none => exact id
  | some sess => exact fun hp => List.mem_of_mem_filter hp

theorem nextSid_stopCaught (st : ServiceState) (sid : Nat) :
    (stopCaught st sid).nextSid = st.nextSid := by
  unfold stopCaught stopSession
  cases hg : getSession st sid <;> rfl

theorem mem_foldl_stopCaught {l : List Nat} {st : ServiceState}
    {p : Nat × StreamingSession}
    (hp : p ∈ (l.foldl stopCaught st).sessions) : p ∈ st.sessions := by
  induction l generalizing st with
  | nil => exact hp
  | cons a l ih => exact mem_stopCaught (ih hp)

theorem nextSid_foldl_stopCaught (l : List Nat) (st : ServiceState) :
    (l.foldl stopCaught st).nextSid = st.nextSid := by
  induction l generalizing st with
  | nil => rfl
  | cons a l ih => rw [List.foldl_cons, ih, nextSid_stopCaught]

theorem step_nextSid (st : ServiceState) (a : Action) :
    st.nextSid ≤ (step st a).nextSid := by
  cases a with
  | create o t => exact Nat.le_succ _
  | updatePosition sid pos r =>
    show st.nextSid ≤ (match updateSessionPosition st sid pos r with
      | Except.ok st2 => st2
      | Except.error _ => st).nextSid
    cases h : updateSessionPosition st sid pos r with
    | error e => exact le_rfl
    | ok st2 =>
      cases hg : getSession st sid with
      | none => rw [updateSessionPosition_none hg] at h; cases h
      | some sess =>
        rw [updateSessionPosition_some hg] at h
        by_cases hact : sess.isActive = false
        · rw [if_pos hact] at h; cases h
        · rw [if_neg hact] at h
          injection h with h
          rw [← h, updateBody_nextSid]
  | completeInit sid =>
    show st.nextSid ≤ (completeInitialSegments st sid).nextSid
    unfold completeInitialSegments
    cases hf : st.pendingInit.find? (fun t => t.sid == sid) with
    | none => exact le_rfl
    | some t => cases hg : getSession st sid <;> exact le_rfl
  | completeAff sid =>
    show st.nextSid ≤ (completeAffirmations st sid).nextSid
    unfold completeAffirmations
    cases hf : st.pendingAff.find? (fun t => t.sid == sid) with
    | none => exact le_rfl
    | some t => cases hg : getSession st sid <;> exact le_rfl
  | completeGen sid =>
    show st.nextSid ≤ (completeGeneration st sid).nextSid
    unfold completeGeneration
    by_cases hc : st.pendingGen.contains sid = false
    · rw [if_pos hc]
    · rw [if_neg hc]
      cases hg : getSession st sid with
      | none => exact le_rfl
      | some sess =>
        dsimp only
        split <;> exact le_rfl
  | stop sid => exact le_of_eq (nextSid_stopCaught st sid).symm
  | sweep => exact le_of_eq (nextSid_foldl_stopCaught _ st).symm
  | tick dt => exact le_rfl

theorem step_keys {st : ServiceState} {a : Action} {p : Nat × StreamingSession}
    (hp : p ∈ (step st a).sessions) :
    (∃ q ∈ st.sessions, p.1 = q.1) ∨ st.nextSid ≤ p.1 := by
  cases a with
  | create o t =>
    rcases List.mem_append.mp hp with h1 | h2
    · exact Or.inl ⟨p, h1, rfl⟩
    · have h3 : p.1 = st.nextSid := by
        have := List.mem_singleton.mp h2
        rw [this]
      exact Or.inr (le_of_eq h3.symm)
  | updatePosition sid pos r =>
    revert hp
    show p ∈ (match updateSessionPosition st sid pos r with
      | Except.ok st2 => st2
      | Except.error _ => st).sessions → _
    cases h : updateSessionPosition st sid pos r with
    | error e => exact fun hp => Or.inl ⟨p, hp, rfl⟩
    | ok st2 =>
      intro hp
      cases hg : getSession st sid with
      | none => rw [updateSessionPosition_none hg] at h; cases h
      | some sess =>
        rw [updateSessionPosition_some hg] at h
        by_cases hact : sess.isActive = false
        · rw [if_pos hact] at h; cases h
        · rw [if_neg hact] at h
          injection h with h
          rw [← h, updateBody_sessions] at hp
          exact Or.inl (fst_mem_setSession hp)
  | completeInit sid =>
    revert hp
    show p ∈ (completeInitialSegments st sid).sessions → _
    unfold completeInitialSegments
    cases hf : st.pendingInit.find? (fun t => t.sid == sid) with
    | none => exact fun hp => Or.inl ⟨p, hp, rfl⟩
    | some t =>
      cases hg : getSession st sid with
      | none => exact fun hp => Or.inl ⟨p, hp, rfl⟩
      | some sess =>
        dsimp only
        exact fun hp => Or.inl (fst_mem_setSession hp)
  | completeAff sid =>
    revert hp
    show p ∈ (completeAffirmations st sid).sessions → _
    unfold completeAffirmations
    cases hf : st.pendingAff.find? (fun t => t.sid == sid) with
    | none => exact fun hp => Or.inl ⟨p, hp, rfl⟩
    | some t =>
      cases hg : getSession st sid with
      | none => exact fun hp => Or.inl ⟨p, hp, rfl⟩
      | some sess =>
        dsimp only
        exact fun hp => Or.inl (fst_mem_setSession hp)
  | completeGen sid =>
    revert hp
    show p ∈ (completeGeneration st sid).sessions → _
    unfold completeGeneration
    by_cases hc : st.pendingGen.contains sid = false
    · rw [if_pos hc]
      exact fun hp => Or.inl ⟨p, hp, rfl⟩
    · rw [if_neg hc]
      cases hg : getSession st sid with
      | none => exact fun hp => Or.inl ⟨p, hp, rfl⟩
      | some sess =>
        dsimp only
        split <;> exact fun hp => Or.inl (fst_mem_setSession hp)
  | stop sid => exact Or.inl ⟨p, mem_stopCaught hp, rfl⟩
  | sweep => exact Or.inl ⟨p, mem_foldl_stopCaught hp, rfl⟩
  | tick dt => exact Or.inl ⟨p, hp, rfl⟩

/-- A session id that is absent from the registry and below the id counter:
this is what holds of a stopped session. -/
def Gone (sid : Nat) (st : ServiceState) : Prop :=
  sid < st.nextSid ∧ ∀ p ∈ st.sessions, p.1 ≠ sid

theorem gone_step {sid : Nat} {st : ServiceState} (h : Gone sid st) (a : Action) :
    Gone sid (step st a) := by
  obtain ⟨hlt, hkeys⟩ := h
  refine ⟨lt_of_lt_of_le hlt (step_nextSid st a), ?_⟩
  intro p hp
  rcases step_keys hp with ⟨q, hq, he⟩ | hge
  · rw [he]
    exact hkeys q hq
  · omega

theorem gone_foldl {sid : Nat} (acts : List Action) {st : ServiceState}
    (h : Gone sid st) : Gone sid (acts.foldl step st) := by
  induction acts generalizing st with
  | nil => exact h
  | cons a acts ih => exact ih (gone_step h a)

theorem getSession_eq_none {st : ServiceState} {sid : Nat}
    (h : ∀ p ∈ st.sessions, p.1 ≠ sid) : getSession st sid = none := by
  unfold getSession
  rw [List.find?_eq_none.mpr (fun p hp => by simp [h p hp])]
  rfl

/-! ### Supporting lemmas for the claim theorems -/

theorem find?_pendingInit_fresh (l : List PendingInit) (n d : Nat)
    (hk : ∀ u ∈ l, u.sid ≠ n) :
    (l ++ [(⟨n, d⟩ : PendingInit)]).find? (fun u => u.sid == n)
      = some (⟨n, d⟩ : PendingInit) := by
  induction l with
  | nil => simp [List.find?]
  | cons a l ih =>
    rw [List.cons_append, List.find?_cons_of_neg _ (by simp [hk a (by simp)])]
    exact ih (fun u hu => hk u (by simp [hu]))

theorem gss_durations (d : Nat) (c : Int) (h : Nat) (now : Int) :
    (generateStreamingSegments d c h now).map (fun g => g.duration)
      = List.replicate c.toNat (ceilDiv d c.toNat) := by
  unfold generateStreamingSegments
  rw [List.map_map]
  refine List.eq_replicate_iff.mpr ⟨?_, ?_⟩
  · rw [List.length_map, List.length_range]
  · intro b hb
    rcases List.mem_map.mp hb with ⟨i, _, rfl⟩
    rfl

theorem getSession_set_of_get {st st' : ServiceState} {sid : Nat}
    {sess s' : StreamingSession} (hg : getSession st sid = some sess)
    (hs : st'.sessions = setSession st.sessions sid s') :
    getSession st' sid = some s' := by
  unfold getSession at hg ⊢
  rw [hs, find?_setSession]
  cases hf : st.sessions.find? (fun q => q.1 == sid) with
  | none => rw [hf] at hg; cases hg
  | some q => rfl

theorem segmentEndTimeOf_affPair (sess : StreamingSession) (p : Int) (r : Nat) :
    segmentEndTimeOf (affPair sess p r).1 = segmentEndTimeOf sess := by
  have hf := affPair_fields sess p r
  unfold segmentEndTimeOf currentSegmentDurationOf
  rw [hf.2.2.2.2.2.2.2.1, hf.2.2.2.2.2.2.2.2.2.1]

theorem affPair_not_fire {sess : StreamingSession} {p : Int} (r : Nat)
    (h : ¬ (p - sess.lastAffirmationTime ≥ sess.affirmationInterval)) :
    affPair sess p r = ({ sess with currentPosition := p }, []) := by
  unfold affPair
  rw [if_neg h]

theorem affPair_fire {sess : StreamingSession} {p : Int} (r : Nat)
    (h : p - sess.lastAffirmationTime ≥ sess.affirmationInterval)
    (hpool : ¬ sess.affirmations.length = 0) :
    affPair sess p r =
      ({ sess with currentPosition := p, lastAffirmationTime := p },
       [Event.playAffirmation sess.id
          (sess.affirmations.getD (r % sess.affirmations.length) defaultAudio).id]) := by
  unfold affPair triggerAffirmation
  rw [if_pos h]
  dsimp only
  rw [if_neg hpool]

theorem playAffirmationCount_updateBody (st : ServiceState) (sid : Nat) (p : Int)
    (r : Nat) (sess : StreamingSession) :
    playAffirmationCount (updateBody st sid p r sess) sid
      = playAffirmationCount st sid
        + ((affPair sess p r).2.countP (fun e => match e with
            | Event.playAffirmation s _ => s == sid
            | _ => false)) := by
  unfold playAffirmationCount
  rw [updateBody_events, List.countP_append]

theorem updateSessionPosition_ok {st : ServiceState} {sid : Nat} {p : Int}
    {r : Nat} {sess : StreamingSession} (hg : getSession st sid = some sess)
    (hact : sess.isActive = true) :
    updateSessionPosition st sid p r = Except.ok (updateBody st sid p r sess) := by
  rw [updateSessionPosition_some hg, if_neg (by simp [hact])]

/-! ### Concrete inputs and traces used by the claims -/

def optsB3 : StreamingOptions := { trackId := 1, userId := "u", bufferSize := some 3 }

def optsB1 : StreamingOptions := { trackId := 1, userId := "u", bufferSize := some 1 }

def optsDefault : StreamingOptions := { trackId := 1, userId := "u" }

def track5 : TrackData := { duration := 5, affirmations := [] }

def trackAff : TrackData := { duration := 5, affirmations := ["rest"] }

def c1Trace : List Action := [Action.create optsB3 track5, Action.completeInit 0]

def c3aTrace : List Action := [Action.create optsB3 track5, Action.updatePosition 0 30 0]

def c3Trace : List Action := c3aTrace ++ [Action.updatePosition 0 31 0]

/-- The session of `run c3aTrace`: position written, initial batch still
pending, one generation request outstanding. -/
def c3Sess : StreamingSession :=
  { id := 0, userId := "u", trackId := 1, isActive := true, startTime := 0
    currentPosition := 30, totalDuration := 300, affirmationInterval := 30
    lastAffirmationTime := 0, musicSegments := [], affirmations := []
    currentSegmentIndex := 0, bufferSize := 3 }

def c4Trace : List Action :=
  [Action.create optsB3 track5, Action.updatePosition 0 30 0, Action.stop 0]

def c5Trace : List Action :=
  [Action.create optsB1 track5, Action.completeInit 0,
   Action.updatePosition 0 30 0, Action.completeGen 0,
   Action.updatePosition 0 30 0, Action.completeGen 0,
   Action.updatePosition 0 30 0]

/-- The session of `run c5Trace`: `bufferSize = 1`, buffer at its
`bufferSize + 2` cap, one generation request outstanding. -/
def c5Sess : StreamingSession :=
  { id := 0, userId := "u", trackId := 1, isActive := true, startTime := 0
    currentPosition := 30, totalDuration := 300, affirmationInterval := 30
    lastAffirmationTime := 0
    musicSegments :=
      [{ id := 0, audioPath := 0, duration := 60, prompt := "", generatedAt := 0 },
       { id := 1, audioPath := 1, duration := 60, prompt := "", generatedAt := 0 },
       { id := 2, audioPath := 2, duration := 60, prompt := "", generatedAt := 0 }]
    affirmations := [], currentSegmentIndex := 0, bufferSize := 1 }

def c6Base : List Action := [Action.create optsDefault trackAff, Action.completeAff 0]

def c6Updates : List Action :=
  [Action.updatePosition 0 29 0, Action.updatePosition 0 30 0,
   Action.updatePosition 0 59 0, Action.updatePosition 0 60 0]

/-- The session of `run c6Base`: default options, a one-clip pool. -/
def c6Sess : StreamingSession :=
  { id := 0, userId := "u", trackId := 1, isActive := true, startTime := 0
    currentPosition := 0, totalDuration := 300, affirmationInterval := 30
    lastAffirmationTime := 0, musicSegments := []
    affirmations := [{ id := 0, audioPath := 0, text := "rest", duration := 3, synthesizedAt := 0 }]
    currentSegmentIndex := 0, bufferSize := 3 }

def c7Trace : List Action :=
  [Action.create optsDefault trackAff, Action.completeInit 0, Action.completeAff 0]

/-- The session of `run c7Trace`: three segments and one affirmation clip. -/
def c7Sess : StreamingSession :=
  { id := 0, userId := "u", trackId := 1, isActive := true, startTime := 0
    currentPosition := 0, totalDuration := 300, affirmationInterval := 30
    lastAffirmationTime := 0
    musicSegments :=
      [{ id := 0, audioPath := 0, duration := 20, prompt := "", generatedAt := 0 },
       { id := 1, audioPath := 1, duration := 20, prompt := "", generatedAt := 0 },
       { id := 2, audioPath := 2, duration := 20, prompt := "", generatedAt := 0 }]
    affirmations := [{ id := 3, audioPath := 3, text := "rest", duration := 3, synthesizedAt := 0 }]
    currentSegmentIndex := 0, bufferSize := 3 }

def c8aTrace : List Action := [Action.create optsB3 track5]

/-- The session of `run c8aTrace`: freshly created. -/
def sessInit0 : StreamingSession :=
  { id := 0, userId := "u", trackId := 1, isActive := true, startTime := 0
    currentPosition := 0, totalDuration := 300, affirmationInterval := 30
    lastAffirmationTime := 0, musicSegments := [], affirmations := []
    currentSegmentIndex := 0, bufferSize := 3 }

/-- Created at time 0; a position update arrives 1 second before the sweep
at the 31-minute mark. -/
def c8Trace : List Action :=
  [Action.create optsB3 track5, Action.tick 1859000,
   Action.updatePosition 0 10 0, Action.tick 1000, Action.sweep]

def opts9 : StreamingOptions := { trackId := 1, userId := "u", bufferSize := some 0 }

def opts9b : StreamingOptions :=
  { trackId := 1, userId := "u", affirmationInterval := some (-1) }

/-! ### The claims -/

/-- C1, counterexample: with `bufferSize = 3` and `totalDuration = 300`
(a 5-minute track), the initial population yields exactly 3 segments, but
their recorded durations sum to 60 — `Math.ceil(60 / 3) = 20` seconds each,
driven by the `segmentDuration` option's default of 60, not by
`totalDuration` — so the sum is far below `totalDuration`. -/
theorem C1_counterexample :
    (getSession (run c1Trace) 0).map
        (fun s => (s.musicSegments.length,
          (s.musicSegments.map (fun g => g.duration)).sum, s.totalDuration))
      = some (3, 60, 300)
    ∧ (getSession (run c1Trace) 0).map
        (fun s => decide (s.totalDuration ≤ (s.musicSegments.map (fun g => g.duration)).sum))
      = some false := by
  constructor
  · decide
  · decide

/-- C1 (amended): for every reachable state, creating a session and letting
the initial population complete yields exactly `bufferSize` (default 3)
segments, each of duration `ceil(segmentDurationOption / bufferSize)` with
`segmentDurationOption` defaulting to 60 — independent of `totalDuration`.
In particular the durations need not sum to `totalDuration`. -/
theorem C1_amended (st : ServiceState) (o : StreamingOptions) (t : TrackData)
    (hr : Reachable st) :
    (getSession (completeInitialSegments (createStreamingSession st o t).1
        (createStreamingSession st o t).2.id) (createStreamingSession st o t).2.id).map
      (fun s => (s.totalDuration, s.musicSegments.map (fun g => g.duration)))
      = some (t.duration * 60,
          List.replicate (jsOrInt o.bufferSize 3).toNat
            (ceilDiv (jsOrNat o.segmentDuration 60) (jsOrInt o.bufferSize 3).toNat)) := by
  have hI := inv_reachable hr
  have hfresh : ∀ p ∈ st.sessions, p.1 ≠ st.nextSid :=
    fun p hp => Nat.ne_of_lt (hI.sess p hp).sidLt
  have hg1 : getSession (createStreamingSession st o t).1 st.nextSid
      = some (createStreamingSession st o t).2 := by
    unfold getSession createStreamingSession
    dsimp only
    rw [find?_append_fresh _ _ _ hfresh]
    rfl
  have hfind : (createStreamingSession st o t).1.pendingInit.find?
      (fun u => u.sid == st.nextSid)
      = some (⟨st.nextSid, jsOrNat o.segmentDuration 60⟩ : PendingInit) := by
    show (st.pendingInit
        ++ [(⟨st.nextSid, jsOrNat o.segmentDuration 60⟩ : PendingInit)]).find? _ = _
    exact find?_pendingInit_fresh _ _ _
      (fun u hu => Nat.ne_of_lt (hI.pendInit u hu).1)
  show (getSession (completeInitialSegments (createStreamingSession st o t).1
      st.nextSid) st.nextSid).map _ = _
  unfold completeInitialSegments
  rw [hfind]
  dsimp only
  rw [hg1]
  dsimp only
  rw [getSession_set_of_get hg1 rfl]
  simp only [Option.map_some']
  rw [gss_durations]
  rfl

/-- C1 witness: the amended statement at the concrete scenario
(`bufferSize = 3`, 5-minute track, hence `totalDuration = 300`), where the
batch is three 20-second segments (summing to 60). -/
theorem C1_amended_witness :
    (getSession (completeInitialSegments
        (createStreamingSession initialState optsB3 track5).1
        (createStreamingSession initialState optsB3 track5).2.id)
        (createStreamingSession initialState optsB3 track5).2.id).map
      (fun s => (s.totalDuration, s.musicSegments.map (fun g => g.duration)))
      = some (300, List.replicate ((3:Int)).toNat (ceilDiv 60 ((3:Int)).toNat))
    ∧ List.replicate ((3:Int)).toNat (ceilDiv 60 ((3:Int)).toNat) = [20, 20, 20] :=
  ⟨C1_amended initialState optsB3 track5 ⟨[], rfl⟩, by decide⟩

/-- C3, counterexample: two successive position updates that both cross the
growth trigger while the first request is still in flight leave two
outstanding generation requests for the same session — there is no
single-flight guard. -/
theorem C3_counterexample :
    (run c3Trace).pendingGen = [0, 0] ∧ 2 ≤ (run c3Trace).pendingGen.count 0 := by
  constructor
  · decide
  · decide

/-- C3 (amended): a position update crossing the growth trigger always
issues one more generation request, even when one is already outstanding
for this session; the outstanding count can therefore exceed one. -/
theorem C3_amended (st : ServiceState) (sid : Nat) (sess : StreamingSession)
    (p : Int) (r : Nat) (hg : getSession st sid = some sess)
    (hact : sess.isActive = true) (hpend : sid ∈ st.pendingGen)
    (htrig : p ≥ segmentEndTimeOf sess - 30) :
    updateSessionPosition st sid p r = Except.ok (updateBody st sid p r sess)
    ∧ (updateBody st sid p r sess).pendingGen = st.pendingGen ++ [sid]
    ∧ 2 ≤ (updateBody st sid p r sess).pendingGen.count sid := by
  have h2 : (updateBody st sid p r sess).pendingGen = st.pendingGen ++ [sid] := by
    rw [updateBody_pendingGen, segmentEndTimeOf_affPair, if_pos htrig]
  refine ⟨updateSessionPosition_ok hg hact, h2, ?_⟩
  rw [h2, List.count_append]
  have h3 : 0 < st.pendingGen.count sid := List.count_pos_iff.mpr hpend
  have h4 : List.count sid [sid] = 1 := by simp
  omega

/-- C3 witness: the amended statement on the state of `c3aTrace`, where a
request for session 0 is already outstanding and the update to 31 crosses
the trigger again. -/
theorem C3_amended_witness :
    updateSessionPosition (run c3aTrace) 0 31 0
        = Except.ok (updateBody (run c3aTrace) 0 31 0 c3Sess)
    ∧ (updateBody (run c3aTrace) 0 31 0 c3Sess).pendingGen
        = (run c3aTrace).pendingGen ++ [0]
    ∧ 2 ≤ (updateBody (run c3aTrace) 0 31 0 c3Sess).pendingGen.count 0 :=
  C3_amended (run c3aTrace) 0 c3Sess 31 0 (by decide) rfl (by decide) (by decide)

/-- C4, counterexample: a generation request is in flight when the session
is stopped; its completion afterwards is not a no-op — it still emits a
`newSegmentReady` event for the stopped session (and, in the source, pushes
onto the detached session object). -/
theorem C4_counterexample :
    (run c4Trace).pendingGen = [0]
    ∧ (run c4Trace).events = [Event.sessionStopped 0]
    ∧ (step (run c4Trace) (Action.completeGen 0)).events
        = [Event.sessionStopped 0, Event.newSegmentReady 0] := by
  refine ⟨by decide, by decide, by decide⟩

/-- C4 (amended): a late completion is not a no-op (it still emits), but a
stopped session's id never reappears: after any further actions the id is
absent from the registry, absent from every `getUserSessions` result, and
`getStreamingUrl` reports the session as not found. -/
theorem C4_amended (st : ServiceState) (sid : Nat) (more : List Action)
    (hr : Reachable st)
    (hgone : sid < st.nextSid ∧ ∀ p ∈ st.sessions, p.1 ≠ sid) :
    (∀ p ∈ (more.foldl step st).sessions, p.1 ≠ sid)
    ∧ (∀ u s, s ∈ getUserSessions (more.foldl step st) u → s.id ≠ sid)
    ∧ (∀ i, getStreamingUrl (more.foldl step st) sid i
        = Except.error "Session not found or inactive") := by
  have hI : Inv (more.foldl step st) := by
    rcases hr with ⟨acts, rfl⟩
    exact inv_foldl more (inv_run acts)
  have hg : Gone sid (more.foldl step st) := gone_foldl more hgone
  refine ⟨hg.2, ?_, ?_⟩
  · intro u s hs
    have hs2 := List.mem_of_mem_filter hs
    rcases List.mem_map.mp hs2 with ⟨q, hq, rfl⟩
    rw [(hI.sess q hq).idEq]
    exact hg.2 q hq
  · intro i
    unfold getStreamingUrl
    rw [getSession_eq_none hg.2]

/-- C4 witness: after stopping session 0 of `c4Trace` and letting the
in-flight generation complete, the session serves no segment handle. -/
theorem C4_amended_witness :
    getStreamingUrl (([Action.completeGen 0]).foldl step (run c4Trace)) 0 0
      = Except.error "Session not found or inactive" :=
  (C4_amended (run c4Trace) 0 [Action.completeGen 0] ⟨c4Trace, rfl⟩
    ⟨by decide, by decide⟩).2.2 0

def optsBneg : StreamingOptions :=
  { trackId := 1, userId := "u", bufferSize := some (-3) }

def c5NegTrace : List Action :=
  [Action.create optsBneg track5, Action.completeInit 0, Action.completeAff 0]

/-- C5, counterexample: the source stores any unvalidated `bufferSize`
(`routes.ts` passes the request body straight through, and a negative value
is truthy under the `||` defaulting).  With `bufferSize = −3` the initial
batch loop runs zero times, so after both background tasks have completed
the session sits at rest with 0 buffered segments while
`bufferSize + 2 = −1` — the claimed `count ≤ bufferSize + 2` invariant is
false in this reachable at-rest state. -/
theorem C5_counterexample :
    (run c5NegTrace).pendingInit = []
    ∧ (run c5NegTrace).pendingAff = []
    ∧ (run c5NegTrace).pendingGen = []
    ∧ (getSession (run c5NegTrace) 0).map
        (fun s => (s.musicSegments.length, s.bufferSize)) = some (0, -3)
    ∧ (getSession (run c5NegTrace) 0).map
        (fun s => decide ((s.musicSegments.length : Int) ≤ s.bufferSize + 2))
      = some false := by
  refine ⟨by decide, by decide, by decide, by decide, by decide⟩

/-- C5 (amended): the buffered count never exceeds
`max (bufferSize + 2) 0` in any reachable state; in particular, for every
session whose `bufferSize` is nonnegative (every defaulted or positively
configured one) the count never exceeds `bufferSize + 2`.  Whenever a
completion would push a non-empty buffer past `bufferSize + 2`, the oldest
segment is dropped and its file unlinked in the same step.  Only sessions
created with an unvalidated `bufferSize ≤ −3` escape the claimed bound,
sitting permanently at the empty buffer. -/
theorem C5_amended (st : ServiceState) (hr : Reachable st) :
    (∀ p ∈ st.sessions,
      (p.2.musicSegments.length : Int) ≤ max (p.2.bufferSize + 2) 0)
    ∧ (∀ p ∈ st.sessions, 0 ≤ p.2.bufferSize →
        (p.2.musicSegments.length : Int) ≤ p.2.bufferSize + 2)
    ∧ (∀ sid sess, getSession st sid = some sess → sid ∈ st.pendingGen →
        (sess.musicSegments.length : Int) = sess.bufferSize + 2 →
        0 < sess.musicSegments.length →
        (getSession (completeGeneration st sid) sid).map
            (fun s => (s.musicSegments.length : Int)) = some (sess.bufferSize + 2)
        ∧ (completeGeneration st sid).released
            = st.released ++ (sess.musicSegments.map (fun g => g.audioPath)).take 1) := by
  have hI := inv_reachable hr
  refine ⟨fun p hp => (hI.sess p hp).bufBound, ?_, ?_⟩
  · intro p hp hb
    have := (hI.sess p hp).bufBound
    omega
  · intro sid sess hg hpend hlen hpos
    have hc : ¬ st.pendingGen.contains sid = false := by
      simpa using hpend
    obtain ⟨a, rest, hm⟩ : ∃ a rest, sess.musicSegments = a :: rest := by
      cases hmm : sess.musicSegments with
      | nil =>
        rw [hmm] at hpos
        simp at hpos
      | cons a rest => exact ⟨a, rest, rfl⟩
    unfold completeGeneration
    rw [if_neg hc, hg]
    dsimp only
    rw [if_pos (by
      simp only [List.length_append, List.length_cons, List.length_nil]
      omega)]
    constructor
    · rw [getSession_set_of_get hg rfl]
      simp only [Option.map_some', Option.some.injEq]
      rw [hm]
      rw [hm] at hlen
      simp only [List.length_cons] at hlen
      simp only [List.cons_append, List.tail_cons, List.length_append, List.length_cons,
        List.length_nil]
      omega
    · dsimp only
      rw [hm]
      simp

/-- C5 witness: the session of `c5Trace` (`bufferSize = 1`, buffer at its
cap of 3, one request outstanding): completing the request keeps the count
at 3 and unlinks the oldest segment's file. -/
theorem C5_amended_witness :
    (getSession (completeGeneration (run c5Trace) 0) 0).map
        (fun s => (s.musicSegments.length : Int)) = some (c5Sess.bufferSize + 2)
    ∧ (completeGeneration (run c5Trace) 0).released
        = (run c5Trace).released
            ++ (c5Sess.musicSegments.map (fun g => g.audioPath)).take 1 :=
  (C5_amended (run c5Trace) ⟨c5Trace, rfl⟩).2.2 0 c5Sess (by decide) (by decide)
    (by decide) (by decide)

/-- C6: on a position update of an active session with a non-empty pool,
exactly one `playAffirmation` is emitted and `lastAffirmationTime` is set
to the new position when `position − lastAffirmationTime ≥
affirmationInterval`, and neither happens otherwise; with
`affirmationInterval = 30` the updates 29, 30, 59, 60 emit 0, 1, 0, 1
events respectively, so along a strictly increasing position sequence the
event fires at most once per interval. -/
theorem C6_affirmation_schedule :
    (∀ st sid sess (p : Int) (r : Nat), Reachable st → getSession st sid = some sess →
      sess.isActive = true → sess.affirmations ≠ [] →
      updateSessionPosition st sid p r = Except.ok (updateBody st sid p r sess)
      ∧ (if p - sess.lastAffirmationTime ≥ sess.affirmationInterval then
          playAffirmationCount (updateBody st sid p r sess) sid
              = playAffirmationCount st sid + 1
          ∧ (getSession (updateBody st sid p r sess) sid).map
              (fun s => s.lastAffirmationTime) = some p
        else
          playAffirmationCount (updateBody st sid p r sess) sid = playAffirmationCount st sid
          ∧ (getSession (updateBody st sid p r sess) sid).map
              (fun s => s.lastAffirmationTime) = some sess.lastAffirmationTime))
    ∧ (playAffirmationCount (run (c6Base ++ c6Updates.take 1)) 0 = 0
       ∧ playAffirmationCount (run (c6Base ++ c6Updates.take 2)) 0 = 1
       ∧ playAffirmationCount (run (c6Base ++ c6Updates.take 3)) 0 = 1
       ∧ playAffirmationCount (run (c6Base ++ c6Updates.take 4)) 0 = 2) := by
  constructor
  · intro st sid sess p r hr hg hact hpool
    have hid := (sessInv_of_getSession (inv_reachable hr) hg).idEq
    refine ⟨updateSessionPosition_ok hg hact, ?_⟩
    by_cases hc : p - sess.lastAffirmationTime ≥ sess.affirmationInterval
    · rw [if_pos hc]
      have hpl : ¬ sess.affirmations.length = 0 := by
        simpa [List.length_eq_zero] using hpool
      constructor
      · rw [playAffirmationCount_updateBody, affPair_fire r hc hpl]
        simp [hid]
      · rw [getSession_set_of_get hg (updateBody_sessions st sid p r sess),
          affPair_fire r hc hpl]
        rfl
    · rw [if_neg hc]
      constructor
      · rw [playAffirmationCount_updateBody, affPair_not_fire r hc]
        rfl
      · rw [getSession_set_of_get hg (updateBody_sessions st sid p r sess),
          affPair_not_fire r hc]
        rfl
  · exact ⟨by decide, by decide, by decide, by decide⟩

/-- C6 witness: the session of `c6Base` updated to position 30 with
interval 30 — the condition fires, one event is emitted and
`lastAffirmationTime` becomes 30. -/
theorem C6_affirmation_schedule_witness :
    updateSessionPosition (run c6Base) 0 30 0
        = Except.ok (updateBody (run c6Base) 0 30 0 c6Sess)
    ∧ (if (30:Int) - c6Sess.lastAffirmationTime ≥ c6Sess.affirmationInterval then
        playAffirmationCount (updateBody (run c6Base) 0 30 0 c6Sess) 0
            = playAffirmationCount (run c6Base) 0 + 1
        ∧ (getSession (updateBody (run c6Base) 0 30 0 c6Sess) 0).map
            (fun s => s.lastAffirmationTime) = some 30
      else
        playAffirmationCount (updateBody (run c6Base) 0 30 0 c6Sess) 0
            = playAffirmationCount (run c6Base) 0
        ∧ (getSession (updateBody (run c6Base) 0 30 0 c6Sess) 0).map
            (fun s => s.lastAffirmationTime) = some c6Sess.lastAffirmationTime) :=
  C6_affirmation_schedule.1 (run c6Base) 0 c6Sess 30 0 ⟨c6Base, rfl⟩ (by decide) rfl
    (by decide)

/-- C7: stopping an existing session succeeds, unlinks each owned segment
and affirmation file exactly once (their handles are pairwise distinct),
removes the record, and a second stop on the same id fails with the
not-found error without touching anything. -/
theorem C7_stop_twice (st : ServiceState) (sid : Nat) (sess : StreamingSession)
    (hr : Reachable st) (hg : getSession st sid = some sess) :
    stopSession st sid = Except.ok { st with
        sessions := deleteSession st.sessions sid
        released := st.released ++ cleanupSession sess
        events := st.events ++ [Event.sessionStopped sid] }
    ∧ (cleanupSession sess).Nodup
    ∧ stopSession { st with
        sessions := deleteSession st.sessions sid
        released := st.released ++ cleanupSession sess
        events := st.events ++ [Event.sessionStopped sid] } sid
      = Except.error "Session not found" := by
  have hnd := (sessInv_of_getSession (inv_reachable hr) hg).pathsNodup
  refine ⟨?_, hnd, ?_⟩
  · unfold stopSession
    rw [hg]
  · unfold stopSession
    rw [show getSession { st with
        sessions := deleteSession st.sessions sid
        released := st.released ++ cleanupSession sess
        events := st.events ++ [Event.sessionStopped sid] } sid = none from by
      unfold getSession
      dsimp only
      rw [find?_deleteSession]
      rfl]

/-- C7 witness: the session of `c7Trace` (three segments, one affirmation):
stop succeeds releasing handles 0,1,2,3 once each, the second stop reports
not-found. -/
theorem C7_stop_twice_witness :
    stopSession (run c7Trace) 0 = Except.ok { (run c7Trace) with
        sessions := deleteSession (run c7Trace).sessions 0
        released := (run c7Trace).released ++ cleanupSession c7Sess
        events := (run c7Trace).events ++ [Event.sessionStopped 0] }
    ∧ (cleanupSession c7Sess).Nodup
    ∧ stopSession { (run c7Trace) with
        sessions := deleteSession (run c7Trace).sessions 0
        released := (run c7Trace).released ++ cleanupSession c7Sess
        events := (run c7Trace).events ++ [Event.sessionStopped 0] } 0
      = Except.error "Session not found" :=
  C7_stop_twice (run c7Trace) 0 c7Sess ⟨c7Trace, rfl⟩ (by decide)

/-- C8: a sweep pass targets a registered session exactly when it is
inactive or `now − startTime` exceeds 30 minutes; position updates never
touch `startTime`; and in the concrete scenario a session created 31
minutes ago that got an update 1 second ago is removed by the sweep. -/
theorem C8_sweep_age :
    (∀ st sid sess, Reachable st → getSession st sid = some sess →
      (sid ∈ sweepTargets st ↔
        (sess.isActive = false ∨ st.now - sess.startTime > maxInactiveTime)))
    ∧ (∀ st sid sess (p : Int) (r : Nat), getSession st sid = some sess →
        sess.isActive = true →
        updateSessionPosition st sid p r = Except.ok (updateBody st sid p r sess)
        ∧ (getSession (updateBody st sid p r sess) sid).map (fun s => s.startTime)
            = some sess.startTime)
    ∧ getSession (run c8Trace) 0 = none := by
  refine ⟨?_, ?_, by decide⟩
  · intro st sid sess hr hg
    have hI := inv_reachable hr
    unfold sweepTargets
    constructor
    · intro hmem
      rcases List.mem_map.mp hmem with ⟨q, hq, hq1⟩
      obtain ⟨k, v⟩ := q
      dsimp only at hq1
      subst hq1
      have hqmem := List.mem_of_mem_filter hq
      have hcond := List.of_mem_filter hq
      have hvs : v = sess := assoc_mem_eq hI.keysNodup hqmem (mem_of_getSession hg)
      subst hvs
      simpa using hcond
    · intro h
      refine List.mem_map.mpr ⟨(sid, sess),
        List.mem_filter.mpr ⟨mem_of_getSession hg, ?_⟩, rfl⟩
      simpa using h
  · intro st sid sess p r hg hact
    refine ⟨updateSessionPosition_ok hg hact, ?_⟩
    rw [getSession_set_of_get hg (updateBody_sessions st sid p r sess)]
    simp only [Option.map_some', Option.some.injEq]
    exact (affPair_fields sess p r).2.2.2.1

/-- C8 witness: the freshly created session of `c8aTrace` is not a sweep
target, matching the right-hand side of the characterization. -/
theorem C8_sweep_age_witness :
    0 ∈ sweepTargets (run c8aTrace) ↔
      (sessInit0.isActive = false
        ∨ (run c8aTrace).now - sessInit0.startTime > maxInactiveTime) :=
  C8_sweep_age.1 (run c8aTrace) 0 sessInit0 ⟨c8aTrace, rfl⟩ (by decide)

/-- C9, counterexample: `createStreamingSession` performs no validation.
With `bufferSize = 0` (≤ 0) the session is still created and registered
(the falsy 0 is silently replaced by the default 3), and with
`affirmationInterval = −1` (≤ 0) the session is created with the negative
interval stored as-is — the claim that creation fails is false. -/
theorem C9_counterexample :
    opts9.bufferSize = some 0
    ∧ (createStreamingSession initialState opts9 track5).1.sessions.length = 1
    ∧ getSession (createStreamingSession initialState opts9 track5).1 0
        = some (createStreamingSession initialState opts9 track5).2
    ∧ (createStreamingSession initialState opts9 track5).2.bufferSize = 3
    ∧ opts9b.affirmationInterval = some (-1)
    ∧ (createStreamingSession initialState opts9b track5).1.sessions.length = 1
    ∧ (createStreamingSession initialState opts9b track5).2.affirmationInterval = -1 := by
  refine ⟨rfl, by decide, by decide, by decide, rfl, by decide, by decide⟩

/-- C9 (amended): creation never fails and never validates: every call
registers a session under a fresh id with state ACTIVE, position 0,
currentSegmentIndex 0, lastAffirmationTime 0; a `bufferSize` of 0 falls
back to 3 and an `affirmationInterval` of 0 to 30 by JavaScript falsy
defaulting, while other values (including negatives) are stored as-is. -/
theorem C9_amended (st : ServiceState) (o : StreamingOptions) (t : TrackData)
    (hr : Reachable st) :
    (∀ p ∈ st.sessions, p.1 ≠ (createStreamingSession st o t).2.id)
    ∧ (getSession (createStreamingSession st o t).1 (createStreamingSession st o t).2.id
          = some (createStreamingSession st o t).2
      ∧ (createStreamingSession st o t).2.isActive = true
      ∧ (createStreamingSession st o t).2.currentPosition = 0
      ∧ (createStreamingSession st o t).2.currentSegmentIndex = 0
      ∧ (createStreamingSession st o t).2.lastAffirmationTime = 0
      ∧ (createStreamingSession st o t).2.bufferSize = jsOrInt o.bufferSize 3
      ∧ (createStreamingSession st o t).2.affirmationInterval
          = jsOrInt o.affirmationInterval 30
      ∧ (createStreamingSession st o t).2.totalDuration = t.duration * 60) := by
  have hI := inv_reachable hr
  have hfresh : ∀ p ∈ st.sessions, p.1 ≠ st.nextSid :=
    fun p hp => Nat.ne_of_lt (hI.sess p hp).sidLt
  refine ⟨hfresh, ?_, rfl, rfl, rfl, rfl, rfl, rfl, rfl⟩
  show getSession (createStreamingSession st o t).1 st.nextSid = some _
  unfold getSession createStreamingSession
  dsimp only
  rw [find?_append_fresh _ _ _ hfresh]
  rfl

/-- C9 witness: the amended statement at the initial state with default
options. -/
theorem C9_amended_witness :
    getSession (createStreamingSession initialState optsDefault trackAff).1
        (createStreamingSession initialState optsDefault trackAff).2.id
      = some (createStreamingSession initialState optsDefault trackAff).2
    ∧ (createStreamingSession initialState optsDefault trackAff).2.isActive = true
    ∧ (createStreamingSession initialState optsDefault trackAff).2.currentPosition = 0
    ∧ (createStreamingSession initialState optsDefault trackAff).2.currentSegmentIndex = 0
    ∧ (createStreamingSession initialState optsDefault trackAff).2.lastAffirmationTime = 0
    ∧ (createStreamingSession initialState optsDefault trackAff).2.bufferSize
        = jsOrInt optsDefault.bufferSize 3
    ∧ (createStreamingSession initialState optsDefault trackAff).2.affirmationInterval
        = jsOrInt optsDefault.affirmationInterval 30
    ∧ (createStreamingSession initialState optsDefault trackAff).2.totalDuration
        = trackAff.duration * 60 :=
  (C9_amended initialState optsDefault trackAff ⟨[], rfl⟩).2

/-- C10: a position update of an active session succeeds for every
position, including negative values and backward seeks, storing it
unclamped; when `position − lastAffirmationTime < affirmationInterval`,
`lastAffirmationTime` is untouched (it may exceed the new position) and no
`playAffirmation` event is emitted. -/
theorem C10_update_unclamped (st : ServiceState) (sid : Nat) (sess : StreamingSession)
    (p : Int) (r : Nat) (hg : getSession st sid = some sess)
    (hact : sess.isActive = true) :
    updateSessionPosition st sid p r = Except.ok (updateBody st sid p r sess)
    ∧ (getSession (updateBody st sid p r sess) sid).map
        (fun s => s.currentPosition) = some p
    ∧ (p - sess.lastAffirmationTime < sess.affirmationInterval →
        (getSession (updateBody st sid p r sess) sid).map
            (fun s => s.lastAffirmationTime) = some sess.lastAffirmationTime
        ∧ playAffirmationCount (updateBody st sid p r sess) sid
            = playAffirmationCount st sid) := by
  refine ⟨updateSessionPosition_ok hg hact, ?_, ?_⟩
  · rw [getSession_set_of_get hg (updateBody_sessions st sid p r sess)]
    simp only [Option.map_some', Option.some.injEq]
    exact (affPair_fields sess p r).2.2.2.2.1
  · intro hlt
    have hnc : ¬ (p - sess.lastAffirmationTime ≥ sess.affirmationInterval) := by omega
    constructor
    · rw [getSession_set_of_get hg (updateBody_sessions st sid p r sess),
        affPair_not_fire r hnc]
      rfl
    · rw [playAffirmationCount_updateBody, affPair_not_fire r hnc]
      rfl

/-- C10 witness: the session of `c6Base` updated to position −5 — the call
succeeds, stores −5 unclamped, leaves `lastAffirmationTime` at 0 and emits
nothing. -/
theorem C10_update_unclamped_witness :
    updateSessionPosition (run c6Base) 0 (-5) 0
        = Except.ok (updateBody (run c6Base) 0 (-5) 0 c6Sess)
    ∧ (getSession (updateBody (run c6Base) 0 (-5) 0 c6Sess) 0).map
        (fun s => s.currentPosition) = some (-5)
    ∧ ((getSession (updateBody (run c6Base) 0 (-5) 0 c6Sess) 0).map
          (fun s => s.lastAffirmationTime) = some c6Sess.lastAffirmationTime
        ∧ playAffirmationCount (updateBody (run c6Base) 0 (-5) 0 c6Sess) 0
            = playAffirmationCount (run c6Base) 0) :=
  ⟨(C10_update_unclamped (run c6Base) 0 c6Sess (-5) 0 (by decide) rfl).1,
   (C10_update_unclamped (run c6Base) 0 c6Sess (-5) 0 (by decide) rfl).2.1,
   (C10_update_unclamped (run c6Base) 0 c6Sess (-5) 0 (by decide) rfl).2.2 (by decide)⟩

end Whspr
